import Mathlib

/-
Verification of the behavioral feature-extraction engine and persistence/transport
layer of the KeyloggerMonitoring repository.

Shallow embedding conventions:
* JS numbers carrying exact integer/decimal data are modelled as ℤ / ℚ; values
  produced by `Math.sqrt` / `Math.atan2` are modelled in ℝ.
* A JS expression that can evaluate to NaN where the claims care (the
  `backspaces / totalKeys` accuracy division) is modelled as `Option ℚ`, with
  `none` standing for NaN.
* Code that can throw (the `keyMap['Backspace'].errors++` access on a missing
  entry) is modelled in `Option`, with `none` standing for the thrown TypeError.
* JS truthiness on numbers (`if (x)`) is modelled as `x ≠ 0`.
-/

/-! ## Data model (src/types.ts) -/

inductive KeyType where
  | down
  | up
deriving DecidableEq

structure KeyEvent where
  key : String
  code : String
  timestamp : ℤ
  type : KeyType
deriving DecidableEq

structure MouseEventData where
  x : ℚ
  y : ℚ
  timestamp : ℚ
deriving DecidableEq

structure MouseMetrics where
  avgVelocity : ℝ
  maxVelocity : ℝ
  angularVelocity : ℝ
  clicks : ℕ
  tremorCount : ℕ

structure KeyMetrics where
  key : String
  count : ℕ
  avgDwellTime : ℚ
  errors : ℕ
deriving DecidableEq

structure SessionMetrics where
  startTime : ℤ
  endTime : ℤ
  totalKeys : ℕ
  wpm : ℚ
  cpm : ℚ
  accuracy : Option ℚ
  avgDwellTime : ℚ
  avgFlightTime : ℚ
  backspaces : ℕ
  rhythmVariance : ℝ
  topKeys : List KeyMetrics
  mouseMetrics : MouseMetrics
  privacyModeEnabled : Bool

/-! ## hashString (src/utils/analytics.ts lines 5-11)

DJB2 variant with JS 32-bit shift semantics: `hash << 5` coerces to Int32,
shifts, and wraps to Int32; the following additions are exact (JS doubles are
exact on these magnitudes). -/

def toUint32 (n : ℤ) : ℤ := n % 4294967296

def toInt32 (n : ℤ) : ℤ :=
  let m := toUint32 n
  if m < 2147483648 then m else m - 4294967296

def hashString (s : String) : String :=
  let h : ℤ := s.data.foldl (fun h c => toInt32 (h * 32) + h + (c.toNat : ℤ)) 5381
  String.mk ((Nat.toDigits 16 (toUint32 h).toNat).take 6)

/-- JS `String.prototype.replace` with a string pattern replaces only the first
occurrence; used for `code.replace('Key', '')`. -/
def replFirstAux (pat repl : List Char) : List Char → List Char
  | [] => []
  | c :: rest =>
    if pat = (c :: rest).take pat.length then repl ++ (c :: rest).drop pat.length
    else c :: replFirstAux pat repl rest

def jsReplaceFirst (s pat repl : String) : String :=
  String.mk (replFirstAux pat.data repl.data s.data)

/-! ## calculateMouseMetrics (src/utils/analytics.ts lines 13-59) -/

structure MouseAcc where
  totalDist : ℝ
  maxVel : ℝ
  totalAngleChange : ℝ
  tremors : ℕ
  prevAngle : ℝ

/-- Math.atan2(y, x), modelled as the complex argument of x + y·i. -/
noncomputable def atan2 (y x : ℝ) : ℝ := Complex.arg ⟨x, y⟩

open Classical in
/-- Body of the `for (let i = 1; ...)` loop: the pair (events[i-1], events[i])
tagged with the loop index i.  `dt === 0` skips the whole iteration (including
the prevAngle update); the angle-change accumulation only happens for `i > 1`,
which is an index test, not a processed-pair count. -/
noncomputable def mousePairStep (acc : MouseAcc)
    (ip : ℕ × (MouseEventData × MouseEventData)) : MouseAcc :=
  let i := ip.1
  let p1 := ip.2.1
  let p2 := ip.2.2
  let dt : ℚ := p2.timestamp - p1.timestamp
  if dt = 0 then acc
  else
    let dx : ℝ := ((p2.x - p1.x : ℚ) : ℝ)
    let dy : ℝ := ((p2.y - p1.y : ℚ) : ℝ)
    let dist : ℝ := Real.sqrt (dx * dx + dy * dy)
    let vel : ℝ := dist / ((dt : ℚ) : ℝ)
    let maxVel' : ℝ := if acc.maxVel < vel then vel else acc.maxVel
    let angle : ℝ := atan2 dy dx
    if 1 < i then
      let dAngle := |angle - acc.prevAngle|
      { totalDist := acc.totalDist + dist, maxVel := maxVel',
        totalAngleChange := acc.totalAngleChange + dAngle,
        tremors := acc.tremors + (if 0.1 < dAngle ∧ dist < 5 then 1 else 0),
        prevAngle := angle }
    else
      { totalDist := acc.totalDist + dist, maxVel := maxVel',
        totalAngleChange := acc.totalAngleChange,
        tremors := acc.tremors, prevAngle := angle }

def consecutivePairs (evs : List MouseEventData) :
    List (ℕ × (MouseEventData × MouseEventData)) :=
  ((evs.zip evs.tail).enum).map (fun jp => (jp.1 + 1, jp.2))

noncomputable def calculateMouseMetrics (events : List MouseEventData) : MouseMetrics :=
  match events with
  | [] => ⟨0, 0, 0, 0, 0⟩
  | [_] => ⟨0, 0, 0, 0, 0⟩
  | e0 :: e1 :: rest =>
    let acc := (consecutivePairs (e0 :: e1 :: rest)).foldl mousePairStep ⟨0, 0, 0, 0, 0⟩
    let totalTime : ℚ := ((e0 :: e1 :: rest).getLast?.getD e0).timestamp - e0.timestamp
    { avgVelocity := if 0 < totalTime then acc.totalDist / ((totalTime : ℚ) : ℝ) else 0,
      maxVelocity := acc.maxVel,
      angularVelocity := if 0 < totalTime then acc.totalAngleChange / ((totalTime : ℚ) : ℝ) else 0,
      clicks := 0,
      tremorCount := acc.tremors }

/-! ## The keyEvents.forEach loop (src/utils/analytics.ts lines 91-125)

The JS object `keyMap` (string keys created in insertion order, mutated in
place) is modelled as an insertion-ordered association list. -/

structure KeyEntry where
  down : Option ℤ
  totalDwell : ℤ
  count : ℕ
  errors : ℕ
deriving DecidableEq

def initEntry : KeyEntry := ⟨none, 0, 0, 0⟩

abbrev KeyMap := List (String × KeyEntry)

def kmFind : KeyMap → String → Option KeyEntry
  | [], _ => none
  | (k, v) :: rest, c => if k = c then some v else kmFind rest c

def kmSet : KeyMap → String → KeyEntry → KeyMap
  | [], _, _ => []
  | (k, v) :: rest, c, e => if k = c then (k, e) :: rest else (k, v) :: kmSet rest c e

def kmModify (m : KeyMap) (c : String) (f : KeyEntry → KeyEntry) : KeyMap :=
  match kmFind m c with
  | none => m
  | some v => kmSet m c (f v)

structure ScanState where
  keyMap : KeyMap
  flightTimes : List ℤ
  backspaceCount : ℕ
  lastUpTimestamp : ℤ
deriving DecidableEq

/-- JS truthiness of the stored `down` timestamp in
`if (keyMap[event.code].down)`: a recorded timestamp of 0 is falsy. -/
def entryDownTruthy (en : KeyEntry) : Bool :=
  match en.down with
  | some t => t != 0
  | none => false

/-- One iteration of `keyEvents.forEach` (lines 96-125).  Returns `none` when
the code throws: `keyMap['Backspace'].errors++` (line 103) dereferences the
`'Backspace'` entry, which only exists if some earlier event (or this one) had
`code === 'Backspace'`. -/
def stepEvent (st : ScanState) (e : KeyEvent) : Option ScanState :=
  let m0 : KeyMap :=
    if (kmFind st.keyMap e.code).isNone then st.keyMap ++ [(e.code, initEntry)]
    else st.keyMap
  let bs : Option (KeyMap × ℕ) :=
    if e.key = "Backspace" ∧ e.type = KeyType.down then
      match kmFind m0 "Backspace" with
      | none => none
      | some ent => some (kmSet m0 "Backspace" { ent with errors := ent.errors + 1 },
                          st.backspaceCount + 1)
    else some (m0, st.backspaceCount)
  match bs with
  | none => none
  | some (m1, bc) =>
    match e.type with
    | KeyType.down =>
      let m2 := kmModify m1 e.code (fun en => { en with down := some e.timestamp })
      let fl :=
        if 0 < st.lastUpTimestamp ∧ e.timestamp - st.lastUpTimestamp < 2000 then
          st.flightTimes ++ [e.timestamp - st.lastUpTimestamp]
        else st.flightTimes
      some ⟨m2, fl, bc, st.lastUpTimestamp⟩
    | KeyType.up =>
      let m2 :=
        match kmFind m1 e.code with
        | none => m1
        | some en =>
          match en.down with
          | some t =>
            if t ≠ 0 then
              kmSet m1 e.code
                { en with down := none, totalDwell := en.totalDwell + (e.timestamp - t),
                          count := en.count + 1 }
            else m1
          | none => m1
      some ⟨m2, st.flightTimes, bc, e.timestamp⟩

def processEvents (evs : List KeyEvent) : Option ScanState :=
  List.foldlM stepEvent ⟨[], [], 0, 0⟩ evs

/-! ## calculateMetrics (src/utils/analytics.ts lines 61-167) -/

def totalKeysOf (evs : List KeyEvent) : ℕ :=
  (evs.filter (fun e => e.type == KeyType.down)).length

def mkKeyMetric (privacyMode : Bool) (p : String × KeyEntry) : KeyMetrics :=
  { key := if privacyMode then hashString p.1 else jsReplaceFirst p.1 "Key" "",
    count := p.2.count,
    avgDwellTime := if 0 < p.2.count then (p.2.totalDwell : ℚ) / (p.2.count : ℚ) else 0,
    errors := p.2.errors }

def flightsMean (fl : List ℤ) : ℚ :=
  if 0 < fl.length then ((fl.foldl (· + ·) 0 : ℤ) : ℚ) / (fl.length : ℚ) else 0

/-- Radicand of the rhythm-variance computation:
`flightTimes.reduce((sq, n) => sq + Math.pow(n - globalAvgFlight, 2), 0) / flightTimes.length`. -/
def flightsMeanSqDev (fl : List ℤ) : ℚ :=
  if 0 < fl.length then
    (fl.foldl (fun sq n => sq + ((n : ℚ) - flightsMean fl) ^ 2) 0) / (fl.length : ℚ)
  else 0

/-- Line 146-148: `Math.sqrt` of the mean squared deviation, 0 without samples. -/
noncomputable def rhythmVarianceOf (fl : List ℤ) : ℝ :=
  if 0 < fl.length then Real.sqrt ((flightsMeanSqDev fl : ℚ) : ℝ) else 0

/-- Line 150: `Math.max(0, 100 - ((backspaceCount / totalKeys) * 100))`.
When `totalKeys = 0` the JS division is `0/0 = NaN` (backspaces are only counted
on `down` events, so `totalKeys = 0` forces `backspaces = 0`) and
`Math.max(0, NaN) = NaN`, modelled as `none`; the `backspaces > 0` branch
(`b/0 = +Infinity`, `max(0, -Infinity) = 0`) is unreachable but modelled. -/
def accuracyOf (backspaces totalKeys : ℕ) : Option ℚ :=
  if totalKeys = 0 then (if backspaces = 0 then none else some 0)
  else some (max 0 (100 - ((backspaces : ℚ) / (totalKeys : ℚ)) * 100))

/-- Line 163: `allKeys.sort((a, b) => b.count - a.count)` — stable sort by
descending count. -/
def sortByCountDesc (l : List KeyMetrics) : List KeyMetrics :=
  l.mergeSort (fun a b => decide (b.count ≤ a.count))

def durationMinutesOf (startTime endTime : ℤ) : ℚ :=
  (((endTime - startTime : ℤ) : ℚ) / 1000) / 60

/-- calculateMetrics.  `now` models `Date.now()` (used only by the empty-input
branch for start/end times). -/
noncomputable def calculateMetrics (now : ℤ) (keyEvents : List KeyEvent)
    (mouseEvents : List MouseEventData) (privacyMode : Bool) : Option SessionMetrics :=
  let mouseMetrics := calculateMouseMetrics mouseEvents
  match keyEvents, processEvents keyEvents with
  | [], _ =>
    some { startTime := now, endTime := now, totalKeys := 0, wpm := 0, cpm := 0,
           accuracy := some 100, avgDwellTime := 0, avgFlightTime := 0, backspaces := 0,
           rhythmVariance := 0, topKeys := [], mouseMetrics := mouseMetrics,
           privacyModeEnabled := privacyMode }
  | _ :: _, none => none
  | e0 :: _, some st =>
    let startTime := e0.timestamp
    let endTime := (keyEvents.getLast?.getD e0).timestamp
    let durationMinutes := durationMinutesOf startTime endTime
    let totalKeys := totalKeysOf keyEvents
    let cpm : ℚ := if 0 < durationMinutes then (totalKeys : ℚ) / durationMinutes else 0
    let wpm : ℚ := cpm / 5
    let allKeys := st.keyMap.map (mkKeyMetric privacyMode)
    let validDwells := (allKeys.filter (fun k => decide (0 < k.avgDwellTime))).map
      (fun k => k.avgDwellTime)
    let globalAvgDwell : ℚ :=
      if 0 < validDwells.length then
        validDwells.foldl (· + ·) 0 / (validDwells.length : ℚ)
      else 0
    some { startTime := startTime, endTime := endTime, totalKeys := totalKeys,
           wpm := wpm, cpm := cpm,
           accuracy := accuracyOf st.backspaceCount totalKeys,
           avgDwellTime := globalAvgDwell,
           avgFlightTime := flightsMean st.flightTimes,
           backspaces := st.backspaceCount,
           rhythmVariance := rhythmVarianceOf st.flightTimes,
           topKeys := sortByCountDesc allKeys,
           mouseMetrics := mouseMetrics,
           privacyModeEnabled := privacyMode }

/-! ## Persistence (src/services/persistence.ts lines 7-108) -/

structure ActivityLog where
  timestamp : ℤ
  activity : String
  focusLevel : String
  riskScore : ℚ
  trustScore : ℚ
  description : String
  isEncrypted : Option Bool
deriving DecidableEq

structure UserProfile where
  avgWpm : ℚ
  avgFlightTime : ℚ
  avgAccuracy : Option ℚ
  avgMouseVelocity : ℝ
  totalSessions : ℕ
  lastSeen : ℤ

/-- JS `parseFloat(x.toFixed(2))`: round to 2 decimal places (JS produces the
decimal string of the double and re-parses it; on the exact decimal values the
claims exercise this is rounding to the nearest hundredth). -/
def toFixed2 (x : ℚ) : ℚ := ((round (x * 100) : ℤ) : ℚ) / 100

/-- JS `parseFloat(x.toFixed(4))` on the real-valued mouse velocity. -/
noncomputable def toFixed4R (x : ℝ) : ℝ := ((round (x * 10000) : ℤ) : ℝ) / 10000

/-- The zeroed default used when `getProfile()` returns null (lines 74-81). -/
def defaultProfile (now : ℤ) : UserProfile :=
  { avgWpm := 0, avgFlightTime := 0, avgAccuracy := some 100, avgMouseVelocity := 0,
    totalSessions := 0, lastSeen := now }

/-- Persistence.updateProfile (lines 73-107).  `current` is what
`Persistence.getProfile()` returned; `now` models `Date.now()`.  The returned
profile is also what gets persisted.  `metrics.accuracy = none` (NaN) makes the
accuracy recurrence NaN, which `toFixed`/`parseFloat` preserve; a baseline
holding `none` reads as JSON null, which JS arithmetic coerces to 0 (`getD 0`). -/
noncomputable def updateProfile (now : ℤ) (current : Option UserProfile)
    (metrics : SessionMetrics) : UserProfile :=
  let cur := current.getD (defaultProfile now)
  let n : ℕ := cur.totalSessions
  let newTotal : ℕ := n + 1
  let newWpm : ℚ := (cur.avgWpm * (n : ℚ) + metrics.wpm) / (newTotal : ℚ)
  let newFlight : ℚ :=
    if 0 < metrics.avgFlightTime then
      (cur.avgFlightTime * (n : ℚ) + metrics.avgFlightTime) / (newTotal : ℚ)
    else cur.avgFlightTime
  let newAccuracy : Option ℚ :=
    metrics.accuracy.map (fun a => ((cur.avgAccuracy.getD 0) * (n : ℚ) + a) / (newTotal : ℚ))
  let newMouseVel : ℝ :=
    (cur.avgMouseVelocity * (n : ℝ) + metrics.mouseMetrics.avgVelocity) / (newTotal : ℝ)
  { avgWpm := toFixed2 newWpm,
    avgFlightTime := toFixed2 newFlight,
    avgAccuracy := newAccuracy.map toFixed2,
    avgMouseVelocity := toFixed4R newMouseVel,
    totalSessions := newTotal,
    lastSeen := now }

/-! ### Activity-log storage (lines 18-63)

`localStorage` holds one serialized blob, modelled as the stored list plus the
flag saying whether it was written base64-encoded (`btoa`). -/

structure StoredBlob where
  logs : List ActivityLog
  encoded : Bool
deriving DecidableEq

/-- decryptData (lines 26-37) applied to the stored log blob.
Log lists serialize to JSON starting with `[`; base64 text starts with `W`:
* same mode: decodes fine;
* stored plain, read with encoding on: `atob` throws on `[`/`{`/`"`, the
  fallback `JSON.parse(data)` succeeds — the logs survive;
* stored encoded, read with encoding off: `JSON.parse` of base64 text throws,
  and the fallback is the same failing parse — result null. -/
def decryptLogs : Option StoredBlob → Bool → Option (List ActivityLog)
  | none, _ => none
  | some b, enabled =>
    if b.encoded = enabled then some b.logs
    else if b.encoded then none
    else some b.logs

/-- Persistence.getLogs (lines 51-59): `decryptData(data, enabled) || []`. -/
def getLogs (stored : Option StoredBlob) (enabled : Bool) : List ActivityLog :=
  (decryptLogs stored enabled).getD []

/-- Persistence.saveLog (lines 41-49): re-read under the current mode, tag the
new entry with the mode, prepend, keep the first 50, persist in the current
mode. -/
def saveLog (stored : Option StoredBlob) (log : ActivityLog) (enabled : Bool) : StoredBlob :=
  { logs := (({ log with isEncrypted := some enabled }) :: getLogs stored enabled).take 50,
    encoded := enabled }

/-! ## WSClient (src/services/persistence.ts part 2, lines 109-222)

The transport is modelled as a deterministic step function over an explicit
state, driven by labels for the external calls (`connect`, `disconnect`,
`send`) and the asynchronous callbacks (`onopen`, `onmessage`, `onerror`,
`onclose`, the backoff `setTimeout` firing).  Fallible operations
(`new WebSocket`, `ws.send`) carry a boolean outcome oracle. -/

inductive WSStatus where
  | idle
  | connecting
  | opened
  | closed
  | wsError
deriving DecidableEq

inductive RS where
  | connecting
  | opened
  | closed
deriving DecidableEq

structure WSState (α : Type) where
  ws : Option RS
  reconnectAttempts : ℕ
  shouldReconnect : Bool
  sendQueue : List α
  pendingTimers : ℕ
  lastStatus : WSStatus
deriving DecidableEq

inductive WSLabel (α : Type) where
  | call_connect (ok : Bool)
  | evt_open (sendOk : α → Bool)
  | evt_message (wellFormed : Bool)
  | evt_close
  | evt_error
  | call_disconnect
  | call_send (p : α) (ok : Bool)
  | timer_fire (ok : Bool)

/-- scheduleReconnect's state effect (lines 212-221): bump the attempt counter
and register one pending `setTimeout` callback. -/
def scheduleReconnectS {α} (s : WSState α) : WSState α :=
  { s with reconnectAttempts := s.reconnectAttempts + 1,
           pendingTimers := s.pendingTimers + 1 }

/-- The delay scheduleReconnect passes to `setTimeout` (lines 213-217), as a
function of the pre-call state and the jitter `Math.random() * 250`:
the counter is incremented first, so the delay uses `reconnectAttempts + 1`. -/
def scheduledDelay {α} (s : WSState α) (jitter : ℚ) : ℚ :=
  min 8000 (500 * 2 ^ (s.reconnectAttempts + 1)) + jitter

/-- flushQueue (lines 199-210) as a pure function of the send-success oracle
and the queue spliced out at entry: returns (messages actually sent, final
sendQueue).  On the first throwing send the failed payload is pushed into the
(emptied) queue and the loop breaks. -/
def flushQueue {α} (sendOk : α → Bool) : List α → List α × List α
  | [] => ([], [])
  | p :: rest =>
    if sendOk p then
      let r := flushQueue sendOk rest
      (p :: r.1, r.2)
    else ([], [p])

/-- connect() (lines 141-175).  No-op when already open/connecting; otherwise
reports `connecting` and creates the socket; a throwing constructor reports
`error` and schedules a reconnect. -/
def connectBody {α} (s : WSState α) (ok : Bool) : WSState α :=
  if s.ws = some RS.opened ∨ s.ws = some RS.connecting then s
  else if ok then { s with ws := some RS.connecting, lastStatus := WSStatus.connecting }
  else scheduleReconnectS { s with lastStatus := WSStatus.wsError }

def wsStep {α} (s : WSState α) : WSLabel α → WSState α
  | WSLabel.call_connect ok => connectBody s ok
  | WSLabel.evt_open sendOk =>
    if s.ws = some RS.connecting then
      { s with ws := some RS.opened, lastStatus := WSStatus.opened,
               reconnectAttempts := 0,
               sendQueue := (flushQueue sendOk s.sendQueue).2 }
    else s
  | WSLabel.evt_message wellFormed =>
    if wellFormed then s else { s with lastStatus := WSStatus.wsError }
  | WSLabel.evt_close =>
    let s1 := { s with ws := s.ws.map (fun _ => RS.closed), lastStatus := WSStatus.closed }
    if s.shouldReconnect then scheduleReconnectS s1 else s1
  | WSLabel.evt_error => { s with lastStatus := WSStatus.wsError }
  | WSLabel.call_disconnect =>
    { s with shouldReconnect := false, ws := none, lastStatus := WSStatus.closed }
  | WSLabel.call_send p ok =>
    if s.ws = some RS.opened then
      (if ok then s else { s with sendQueue := s.sendQueue ++ [p] })
    else { s with sendQueue := s.sendQueue ++ [p] }
  | WSLabel.timer_fire ok =>
    if s.pendingTimers = 0 then s
    else
      let s1 := { s with pendingTimers := s.pendingTimers - 1 }
      if s1.shouldReconnect then connectBody s1 ok else s1

def wsRun {α} (s : WSState α) (ls : List (WSLabel α)) : WSState α :=
  ls.foldl wsStep s

/-- A step of the reconnection logic that initiates a reconnect attempt:
either `onclose` scheduling a backoff timer, or a scheduled timer firing and
calling `connect()` (the `setTimeout` callback checks `shouldReconnect`). -/
def initiatesReconnect {α} (s : WSState α) : WSLabel α → Bool
  | WSLabel.evt_close => s.shouldReconnect
  | WSLabel.timer_fire _ => decide (s.pendingTimers ≠ 0) && s.shouldReconnect
  | _ => false

/-! ## Pairing semantics used by claim C10 -/

/-- Modelled from the claim's words: one step of counting completed down/up
pairs for physical code `c` — an up completes a pair whenever a down for the
same code is pending, regardless of the pending timestamp. -/
def completedPairsStep (c : String) (s : Bool × ℕ) (e : KeyEvent) : Bool × ℕ :=
  if e.code = c then
    match e.type with
    | KeyType.down => (true, s.2)
    | KeyType.up => if s.1 then (false, s.2 + 1) else s
  else s

def completedPairsSpec (evs : List KeyEvent) (c : String) : ℕ :=
  (evs.foldl (completedPairsStep c) (false, 0)).2

/-- Per-code projection of the scan loop: the pending down timestamp and the
completed count exactly as the code tracks them in `keyMap[c]` — an up
completes a pair only when the pending down timestamp is truthy (nonzero). -/
def truthyPairStep (c : String) (s : Option ℤ × ℕ) (e : KeyEvent) : Option ℤ × ℕ :=
  if e.code = c then
    match e.type with
    | KeyType.down => (some e.timestamp, s.2)
    | KeyType.up =>
      match s.1 with
      | some t => if t ≠ 0 then (none, s.2 + 1) else s
      | none => s
  else s

def countTruthyPairs (evs : List KeyEvent) (c : String) : ℕ :=
  (evs.foldl (truthyPairStep c) (none, 0)).2

def kmKeys (m : KeyMap) : List String := m.map Prod.fst

/-- The (pending down, completed count) view of an optional key-map entry; a
missing entry reads the same as a fresh one. -/
def entProj (ent : Option KeyEntry) : Option ℤ × ℕ :=
  match ent with
  | none => (none, 0)
  | some en => (en.down, en.count)

/-! # Claims -/


/-- C1: evaluation of `calculateMetrics` on the spec's end-to-end scenario
`[down A @0, up A @80, down B @150, up B @210]` with privacy mode off.
The code records NO dwell for A: the pending down-timestamp 0 is falsy in
`if (keyMap[event.code].down)` (line 118), so the A pair never completes —
topKeys lists A with count 0 and avgDwellTime 0 (not the claimed dwell(A)=80,
and the session avgDwellTime is 60, from B alone).  The other claimed outputs
(dwell(B)=60, one flight of 70 ms, totalKeys=2, rhythmVariance=0, accuracy=100)
do hold. -/
theorem scenario_ts0_dwellA_lost :
    (calculateMetrics 0
      [⟨"a", "KeyA", 0, KeyType.down⟩, ⟨"a", "KeyA", 80, KeyType.up⟩,
       ⟨"b", "KeyB", 150, KeyType.down⟩, ⟨"b", "KeyB", 210, KeyType.up⟩] [] false).map
        (fun m => (m.totalKeys, m.topKeys, m.avgFlightTime, m.avgDwellTime,
                   m.accuracy, m.backspaces)) =
      some (2, [⟨"B", 1, 60, 0⟩, ⟨"A", 0, 0, 0⟩], 70, 60, some 100, 0) ∧
    (calculateMetrics 0
      [⟨"a", "KeyA", 0, KeyType.down⟩, ⟨"a", "KeyA", 80, KeyType.up⟩,
       ⟨"b", "KeyB", 150, KeyType.down⟩, ⟨"b", "KeyB", 210, KeyType.up⟩] [] false).map
        (fun m => m.rhythmVariance) = some 0 := by
  have hp : processEvents
      [⟨"a", "KeyA", 0, KeyType.down⟩, ⟨"a", "KeyA", 80, KeyType.up⟩,
       ⟨"b", "KeyB", 150, KeyType.down⟩, ⟨"b", "KeyB", 210, KeyType.up⟩] =
      some ⟨[("KeyA", ⟨some 0, 0, 0, 0⟩), ("KeyB", ⟨none, 60, 1, 0⟩)], [70], 0, 210⟩ := by
    decide
  have hm : flightsMeanSqDev [70] = 0 := by norm_num [flightsMeanSqDev, flightsMean]
  constructor
  · simp only [calculateMetrics, hp]
    norm_num [totalKeysOf, mkKeyMetric, sortByCountDesc, flightsMean, accuracyOf,
      List.mergeSort, jsReplaceFirst, replFirstAux, List.filter, durationMinutesOf]
    decide
  · simp only [calculateMetrics, hp]
    simp [rhythmVarianceOf, hm]

/-- C2: a non-empty input with only `up` events has `totalKeys = 0`, and the
unguarded line 150 computes `backspaceCount / totalKeys = 0/0 = NaN`, so the
returned accuracy is NaN (`some none` below), not the claimed 100.  For
contrast, with `totalKeys > 0` the claimed formula does hold, e.g.
`accuracyOf 3 4 = max(0, 100 - 100·3/4) = 25`. -/
theorem accuracy_nan_when_no_downs :
    (calculateMetrics 0 [⟨"a", "KeyA", 5, KeyType.up⟩] [] false).map
      (fun m => m.accuracy) = some none ∧
    accuracyOf 3 4 = some 25 := by
  have hp : processEvents [⟨"a", "KeyA", 5, KeyType.up⟩] =
      some ⟨[("KeyA", ⟨none, 0, 0, 0⟩)], [], 0, 5⟩ := by decide
  constructor
  · simp only [calculateMetrics, hp]
    norm_num [totalKeysOf, accuracyOf, List.filter]
    decide
  · norm_num [accuracyOf]

/-- C3: `calculateMetrics` is NOT total.  A `down` event whose key label is
`'Backspace'` but whose physical code is a different string (here `'CapsLock'`)
reaches `keyMap['Backspace'].errors++` (line 103) with no `'Backspace'` entry
in the map (line 97 only creates `keyMap[event.code]`), throwing a TypeError —
modelled as `none`. -/
theorem remapped_backspace_throws :
    calculateMetrics 0 [⟨"Backspace", "CapsLock", 1, KeyType.down⟩] [] false = none := by
  have hp : processEvents [⟨"Backspace", "CapsLock", 1, KeyType.down⟩] = none := by decide
  simp only [calculateMetrics, hp]

/-- C4 counterexample: with queue `[1, 2]` and a first send that throws,
`flushQueue` re-queues only the failed message 1; message 2 is neither sent nor
left in the queue — it is dropped, contradicting the claim that the remaining
messages of the flush pass stay queued. -/
theorem flush_drops_trailing_message :
    flushQueue (fun _ => false) [(1 : ℕ), 2] = ([], [1]) ∧
    (2 : ℕ) ∉ (flushQueue (fun _ => false) [(1 : ℕ), 2]).1 ∧
    (2 : ℕ) ∉ (flushQueue (fun _ => false) [(1 : ℕ), 2]).2 := by
  decide

/-- C4 (amended): on reaching the open state the queue is spliced out and each
message is sent individually in FIFO order until the first failure; the failed
message is re-queued into the emptied queue (becoming its only element), and
the messages after it in this flush pass are dropped; if no send fails, every
message is sent in order and the queue ends empty. -/
theorem flushQueue_first_failure (α : Type) (sendOk : α → Bool) (q : List α) :
    (flushQueue sendOk q).1 = q.takeWhile sendOk ∧
    (flushQueue sendOk q).2 = (q.dropWhile sendOk).take 1 ∧
    ∀ s : WSState α, s.ws = some RS.connecting →
      (wsStep s (WSLabel.evt_open sendOk)).sendQueue = (flushQueue sendOk s.sendQueue).2 := by
  refine ⟨?_, ?_, ?_⟩
  · induction q with
    | nil => simp [flushQueue]
    | cons p rest ih =>
      cases h : sendOk p <;> simp [flushQueue, h, ih]
  · induction q with
    | nil => simp [flushQueue]
    | cons p rest ih =>
      cases h : sendOk p <;> simp [flushQueue, h, ih]
  · intro s hs
    simp [wsStep, hs]

/-- C4 witness: concrete flush of `[1, 2, 3]` where only sending 1 succeeds. -/
theorem flushQueue_first_failure_witness :
    (flushQueue (fun n => decide (n = 1)) [(1 : ℕ), 2, 3]).1 = [1] ∧
    (flushQueue (fun n => decide (n = 1)) [(1 : ℕ), 2, 3]).2 = [2] ∧
    (wsStep (⟨some RS.connecting, 0, true, [(1 : ℕ), 2, 3], 0, WSStatus.connecting⟩ :
        WSState ℕ) (WSLabel.evt_open (fun n => decide (n = 1)))).sendQueue = [2] := by
  obtain ⟨h1, h2, h3⟩ := flushQueue_first_failure ℕ (fun n => decide (n = 1)) [1, 2, 3]
  refine ⟨h1.trans (by decide), h2.trans (by decide), ?_⟩
  have h4 := h3 ⟨some RS.connecting, 0, true, [1, 2, 3], 0, WSStatus.connecting⟩ rfl
  rw [h4, h2]
  decide

/-- connect() either leaves the attempt counter alone or (when the socket
constructor throws and a reconnect is scheduled) increments it. -/
theorem connectBody_attempts {α : Type} (s : WSState α) (ok : Bool) :
    (connectBody s ok).reconnectAttempts = s.reconnectAttempts ∨
    (connectBody s ok).reconnectAttempts = s.reconnectAttempts + 1 := by
  unfold connectBody scheduleReconnectS
  split_ifs <;> simp

/-- C5: the delay scheduled for the k-th consecutive reconnect attempt (the
state holds `reconnectAttempts = k - 1`; `scheduleReconnect` increments first)
lies in `[min(8000, 500·2^k), min(8000, 500·2^k) + 250]` for any jitter in
`[0, 250)`; and the only transition that resets the attempt counter to 0 is a
successful `onopen` on a connecting socket. -/
theorem backoff_delay_and_reset (α : Type) (s : WSState α) (k : ℕ) (j : ℚ)
    (hk : s.reconnectAttempts + 1 = k) (hk1 : 1 ≤ k) (h0 : 0 ≤ j) (h1 : j < 250) :
    (min 8000 (500 * 2 ^ k) ≤ scheduledDelay s j ∧
     scheduledDelay s j ≤ min 8000 (500 * 2 ^ k) + 250) ∧
    ∀ (s' : WSState α) (l : WSLabel α),
      (wsStep s' l).reconnectAttempts = 0 → s'.reconnectAttempts ≠ 0 →
      ∃ sendOk, l = WSLabel.evt_open sendOk ∧ s'.ws = some RS.connecting := by
  constructor
  · subst hk
    unfold scheduledDelay
    constructor
    · exact le_add_of_nonneg_right h0
    · exact add_le_add_left (le_of_lt h1) _
  · intro s' l h hne
    cases l with
    | call_connect ok =>
      simp only [wsStep] at h
      rcases connectBody_attempts s' ok with hc | hc <;> rw [hc] at h
      · exact absurd h hne
      · exact absurd h (Nat.succ_ne_zero _)
    | evt_open sendOk =>
      simp only [wsStep] at h
      by_cases hws : s'.ws = some RS.connecting
      · exact ⟨sendOk, rfl, hws⟩
      · rw [if_neg hws] at h
        exact absurd h hne
    | evt_message wf =>
      simp only [wsStep] at h
      split_ifs at h <;> exact absurd h hne
    | evt_close =>
      simp only [wsStep, scheduleReconnectS] at h
      split_ifs at h
      · exact absurd h (Nat.succ_ne_zero _)
      · exact absurd h hne
    | evt_error =>
      simp only [wsStep] at h
      exact absurd h hne
    | call_disconnect =>
      simp only [wsStep] at h
      exact absurd h hne
    | call_send p ok =>
      simp only [wsStep] at h
      split_ifs at h <;> exact absurd h hne
    | timer_fire ok =>
      simp only [wsStep] at h
      split_ifs at h
      · exact absurd h hne
      · rcases connectBody_attempts _ ok with hc | hc <;> rw [hc] at h
        · exact absurd h hne
        · exact absurd h (Nat.succ_ne_zero _)
      · exact absurd h hne

/-- C5 witness: first attempt (k = 1, counter at 0), zero jitter: the delay is
1000 ∈ [1000, 1250]; and a concrete `onopen` transition resetting a counter
of 3. -/
theorem backoff_delay_and_reset_witness :
    (min 8000 (500 * 2 ^ 1) ≤
        scheduledDelay (⟨none, 0, true, ([] : List ℕ), 0, WSStatus.idle⟩ : WSState ℕ) 0 ∧
      scheduledDelay (⟨none, 0, true, ([] : List ℕ), 0, WSStatus.idle⟩ : WSState ℕ) 0 ≤
        min 8000 (500 * 2 ^ 1) + 250) ∧
    ∃ sendOk, (WSLabel.evt_open (fun _ => true) : WSLabel ℕ) = WSLabel.evt_open sendOk ∧
      (⟨some RS.connecting, 3, true, ([] : List ℕ), 0, WSStatus.connecting⟩ :
        WSState ℕ).ws = some RS.connecting := by
  have h := backoff_delay_and_reset ℕ ⟨none, 0, true, [], 0, WSStatus.idle⟩ 1 0
    rfl (by norm_num) (by norm_num) (by norm_num)
  refine ⟨h.1, ?_⟩
  exact h.2 ⟨some RS.connecting, 3, true, [], 0, WSStatus.connecting⟩
    (WSLabel.evt_open (fun _ => true)) rfl (by decide)

/-- No transition ever turns the do-not-reconnect flag back on (the flag is
only true from construction until `disconnect()`). -/
theorem wsStep_preserves_noReconnect {α : Type} (s : WSState α) (l : WSLabel α)
    (h : s.shouldReconnect = false) : (wsStep s l).shouldReconnect = false := by
  cases l <;> simp only [wsStep, connectBody, scheduleReconnectS] <;>
    (try split_ifs) <;> simp_all

theorem wsRun_preserves_noReconnect {α : Type} (s : WSState α) (ls : List (WSLabel α))
    (h : s.shouldReconnect = false) : (wsRun s ls).shouldReconnect = false := by
  induction ls generalizing s with
  | nil => exact h
  | cons l ls ih => exact ih _ (wsStep_preserves_noReconnect s l h)

/-- C6: after `disconnect()` the do-not-reconnect flag stays cleared along
every subsequent event trace, and no step of the trace — in particular no
channel closure and no already-scheduled backoff timer firing — initiates a
reconnect attempt (schedules one or calls `connect()` from the timer
callback). -/
theorem no_reconnect_after_disconnect (α : Type) (s0 : WSState α)
    (ls : List (WSLabel α)) :
    (wsRun (wsStep s0 WSLabel.call_disconnect) ls).shouldReconnect = false ∧
    ∀ (i : ℕ) (hi : i < ls.length),
      initiatesReconnect (wsRun (wsStep s0 WSLabel.call_disconnect) (ls.take i))
        (ls.get ⟨i, hi⟩) = false := by
  have hd : (wsStep s0 WSLabel.call_disconnect).shouldReconnect = false := by
    simp [wsStep]
  refine ⟨wsRun_preserves_noReconnect _ ls hd, ?_⟩
  intro i hi
  have hsr := wsRun_preserves_noReconnect _ (ls.take i) hd
  cases hl : ls.get ⟨i, hi⟩ <;> simp [initiatesReconnect, hsr]

/-- C6 witness: a close event followed by a stale timer firing after
`disconnect()`; neither initiates a reconnect. -/
theorem no_reconnect_after_disconnect_witness :
    (wsRun (wsStep (⟨some RS.opened, 2, true, ([] : List ℕ), 1, WSStatus.opened⟩ :
        WSState ℕ) WSLabel.call_disconnect)
      [WSLabel.evt_close, WSLabel.timer_fire true]).shouldReconnect = false ∧
    initiatesReconnect
      (wsRun (wsStep (⟨some RS.opened, 2, true, ([] : List ℕ), 1, WSStatus.opened⟩ :
          WSState ℕ) WSLabel.call_disconnect)
        ([WSLabel.evt_close, WSLabel.timer_fire true].take 1))
      ([WSLabel.evt_close, (WSLabel.timer_fire true : WSLabel ℕ)].get ⟨1, by decide⟩) =
      false := by
  have h := no_reconnect_after_disconnect ℕ
    ⟨some RS.opened, 2, true, [], 1, WSStatus.opened⟩
    [WSLabel.evt_close, WSLabel.timer_fire true]
  exact ⟨h.1, h.2 1 (by decide)⟩

/-- C7 counterexample: the input `[up @0, down @1999]` presents a flight gap of
exactly 1999 ms (down at 1999 minus previous up at 0), yet no flight sample is
recorded and `avgFlightTime` stays 0: line 110 guards with
`lastUpTimestamp > 0`, and an up at timestamp 0 leaves the sentinel value, so
the claim that a 1999 ms gap is always included fails. -/
theorem gap1999_after_up_at_zero_not_included :
    (processEvents [⟨"a", "KeyA", 0, KeyType.up⟩, ⟨"b", "KeyB", 1999, KeyType.down⟩]).map
      ScanState.flightTimes = some [] ∧
    (calculateMetrics 0 [⟨"a", "KeyA", 0, KeyType.up⟩, ⟨"b", "KeyB", 1999, KeyType.down⟩]
      [] false).map (fun m => m.avgFlightTime) = some 0 := by
  have hp : processEvents [⟨"a", "KeyA", 0, KeyType.up⟩, ⟨"b", "KeyB", 1999, KeyType.down⟩] =
      some ⟨[("KeyA", ⟨none, 0, 0, 0⟩), ("KeyB", ⟨some 1999, 0, 0, 0⟩)], [], 0, 0⟩ := by
    decide
  constructor
  · rw [hp]; rfl
  · simp only [calculateMetrics, hp]
    norm_num [flightsMean]

/-- C7 (amended): a `down` event whose gap to the recorded previous-up
timestamp is ≥ 2000 ms never extends the flight-sample list; a gap of exactly
1999 ms extends it, provided the previous-up timestamp is positive (the code
uses `lastUpTimestamp > 0` with 0 as the no-previous-up sentinel); and both
`avgFlightTime` and `rhythmVariance` of the returned metrics are functions of
that flight-sample list alone, so discarded gaps contribute to neither. -/
theorem flight_gap_policy (st st' : ScanState) (e : KeyEvent)
    (hd : e.type = KeyType.down) (hs : stepEvent st e = some st') :
    (2000 ≤ e.timestamp - st.lastUpTimestamp → st'.flightTimes = st.flightTimes) ∧
    (0 < st.lastUpTimestamp → e.timestamp - st.lastUpTimestamp = 1999 →
      st'.flightTimes = st.flightTimes ++ [1999]) ∧
    ∀ (now : ℤ) (evs : List KeyEvent) (ms : List MouseEventData) (p : Bool)
      (m : SessionMetrics) (st0 : ScanState),
      processEvents evs = some st0 → calculateMetrics now evs ms p = some m →
      m.avgFlightTime = flightsMean st0.flightTimes ∧
      m.rhythmVariance = rhythmVarianceOf st0.flightTimes := by
  refine ⟨?_, ?_, ?_⟩
  · intro hge
    simp only [stepEvent] at hs
    split at hs
    · exact absurd hs (by simp)
    · rw [hd] at hs
      simp only at hs
      split at hs
      · exfalso
        rename_i hcond
        omega
      · cases hs
        rfl
  · intro hpos h1999
    simp only [stepEvent] at hs
    split at hs
    · exact absurd hs (by simp)
    · rw [hd] at hs
      simp only at hs
      rw [if_pos (by constructor <;> omega)] at hs
      cases hs
      simp [h1999]
  · intro now evs ms p m st0 hproc hm
    cases evs with
    | nil =>
      have h0 : st0 = ⟨[], [], 0, 0⟩ := by
        have : processEvents ([] : List KeyEvent) = some ⟨[], [], 0, 0⟩ := rfl
        rw [this] at hproc
        exact (Option.some_inj.mp hproc).symm
      simp only [calculateMetrics] at hm
      cases hm
      subst h0
      constructor
      · norm_num [flightsMean]
      · simp [rhythmVarianceOf]
    | cons e0 rest =>
      simp only [calculateMetrics, hproc] at hm
      cases hm
      exact ⟨rfl, rfl⟩

/-- C8 counterexample: a first session with wpm = 1/3 (≈ 33.333 wpm).  With no
stored baseline, `updateProfile` stores `parseFloat(newWpm.toFixed(2))` =
0.33, which is NOT exactly the session's value 1/3. -/
theorem updateProfile_rounds_first_session :
    (updateProfile 0 none
      ⟨0, 0, 0, 1/3, 0, some 100, 0, 0, 0, 0, [], ⟨0, 0, 0, 0, 0⟩, false⟩).avgWpm =
      33/100 ∧
    (⟨0, 0, 0, (1/3 : ℚ), 0, some 100, 0, 0, 0, (0 : ℝ), [], ⟨0, 0, 0, 0, 0⟩, false⟩ :
      SessionMetrics).wpm = 1/3 ∧
    (33/100 : ℚ) ≠ 1/3 := by
  refine ⟨?_, rfl, by norm_num⟩
  simp only [updateProfile, defaultProfile, Option.getD_none]
  norm_num [toFixed2, round_eq]

/-- C8 (amended): applied to a missing baseline or one with `totalSessions = 0`
(and a numeric session accuracy), `updateProfile` sets `totalSessions` to 1 and
each tracked average to the session's value rounded to the stored precision
(2 decimals, 4 for mouse velocity) — except `avgFlightTime`, which keeps the
baseline's (rounded) value whenever the session's flight average is not
positive. -/
theorem first_session_profile (now : ℤ) (current : Option UserProfile)
    (metrics : SessionMetrics) (a : ℚ)
    (hc : current = none ∨ ∃ p, current = some p ∧ p.totalSessions = 0)
    (ha : metrics.accuracy = some a) :
    (updateProfile now current metrics).totalSessions = 1 ∧
    (updateProfile now current metrics).avgWpm = toFixed2 metrics.wpm ∧
    (updateProfile now current metrics).avgAccuracy = some (toFixed2 a) ∧
    (updateProfile now current metrics).avgMouseVelocity =
      toFixed4R metrics.mouseMetrics.avgVelocity ∧
    (0 < metrics.avgFlightTime →
      (updateProfile now current metrics).avgFlightTime = toFixed2 metrics.avgFlightTime) ∧
    (¬ 0 < metrics.avgFlightTime →
      (updateProfile now current metrics).avgFlightTime =
        toFixed2 ((current.getD (defaultProfile now)).avgFlightTime)) := by
  rcases hc with h | ⟨p, hp, h0⟩
  · subst h
    refine ⟨rfl, ?_, ?_, ?_, ?_, ?_⟩
    · simp [updateProfile, defaultProfile]
    · simp [updateProfile, defaultProfile, ha]
    · simp [updateProfile, defaultProfile]
    · intro hf
      simp [updateProfile, defaultProfile, if_pos hf]
    · intro hf
      simp [updateProfile, defaultProfile, if_neg hf]
  · subst hp
    refine ⟨by simp [updateProfile, h0], ?_, ?_, ?_, ?_, ?_⟩
    · simp [updateProfile, h0]
    · simp [updateProfile, h0, ha]
    · simp [updateProfile, h0]
    · intro hf
      simp [updateProfile, h0, if_pos hf]
    · intro hf
      simp [updateProfile, h0, if_neg hf]

/-- C8 witness: no baseline, session with wpm = 1/3, accuracy 100, flight
average 5, mouse velocity 0. -/
theorem first_session_profile_witness :
    (updateProfile 0 none
      ⟨0, 0, 0, 1/3, 0, some 100, 0, 5, 0, 0, [], ⟨0, 0, 0, 0, 0⟩, false⟩).totalSessions = 1 ∧
    (updateProfile 0 none
      ⟨0, 0, 0, 1/3, 0, some 100, 0, 5, 0, 0, [], ⟨0, 0, 0, 0, 0⟩, false⟩).avgWpm =
      toFixed2 (1/3) ∧
    (updateProfile 0 none
      ⟨0, 0, 0, 1/3, 0, some 100, 0, 5, 0, 0, [], ⟨0, 0, 0, 0, 0⟩, false⟩).avgAccuracy =
      some (toFixed2 100) ∧
    (updateProfile 0 none
      ⟨0, 0, 0, 1/3, 0, some 100, 0, 5, 0, 0, [], ⟨0, 0, 0, 0, 0⟩, false⟩).avgFlightTime =
      toFixed2 5 := by
  have h := first_session_profile 0 none
    ⟨0, 0, 0, 1/3, 0, some 100, 0, 5, 0, 0, [], ⟨0, 0, 0, 0, 0⟩, false⟩ 100
    (Or.inl rfl) rfl
  exact ⟨h.1, h.2.1, h.2.2.1, h.2.2.2.2.1 (by norm_num)⟩

/-- C9 counterexample: the store holds one entry written with opaque encoding;
`saveLog` is then called with encoding off.  `JSON.parse` of the base64 blob
fails (and the fallback is the same failing parse), so `getLogs` yields `[]`
and the persisted list afterwards contains only the new entry — the previously
stored entry does not follow; it is dropped. -/
theorem saveLog_mode_toggle_drops_history :
    saveLog (some ⟨[⟨1, "a", "b", 0, 0, "c", some true⟩], true⟩)
        ⟨2, "d", "e", 0, 0, "f", none⟩ false =
      ⟨[⟨2, "d", "e", 0, 0, "f", some false⟩], false⟩ ∧
    (⟨1, "a", "b", 0, 0, "c", some true⟩ : ActivityLog) ∉
      (saveLog (some ⟨[⟨1, "a", "b", 0, 0, "c", some true⟩], true⟩)
        ⟨2, "d", "e", 0, 0, "f", none⟩ false).logs := by
  constructor
  · rfl
  · simp [saveLog, getLogs, decryptLogs]

/-- C9 (amended): after every `saveLog` the persisted list has at most 50
entries; its first element is the new entry tagged with the current encoding
flag; the rest is the first 49 previously-readable entries in their prior
order — where the previously stored entries are readable exactly unless the
store was written with opaque encoding and the current mode is plain, in which
case they decode to nothing and are dropped. -/
theorem saveLog_capped_newest_first (stored : Option StoredBlob) (log : ActivityLog)
    (enabled : Bool) :
    (saveLog stored log enabled).logs.length ≤ 50 ∧
    (saveLog stored log enabled).logs.head? =
      some { log with isEncrypted := some enabled } ∧
    (saveLog stored log enabled).logs.tail = (getLogs stored enabled).take 49 ∧
    (∀ b, stored = some b → (b.encoded = false ∨ enabled = true) →
      getLogs stored enabled = b.logs) ∧
    (∀ b, stored = some b → b.encoded = true → enabled = false →
      getLogs stored enabled = []) := by
  refine ⟨?_, ?_, ?_, ?_, ?_⟩
  · simp only [saveLog, List.length_take]
    omega
  · simp [saveLog, List.take_succ_cons]
  · simp [saveLog, List.take_succ_cons]
  · intro b hb hcase
    subst hb
    rcases hcase with h | h <;>
      (simp [getLogs, decryptLogs, h]; try (split_ifs <;> simp_all))
  · intro b hb henc hen
    subst hb
    simp [getLogs, decryptLogs, henc, hen]

/-- C9 witness: a plain-mode store with one old entry, saving a new entry in
plain mode: the new entry is first, the old entry follows, and the old store
is readable. -/
theorem saveLog_capped_newest_first_witness :
    (saveLog (some ⟨[⟨1, "a", "b", 0, 0, "c", some false⟩], false⟩)
        ⟨2, "d", "e", 0, 0, "f", none⟩ false).logs.length ≤ 50 ∧
    (saveLog (some ⟨[⟨1, "a", "b", 0, 0, "c", some false⟩], false⟩)
        ⟨2, "d", "e", 0, 0, "f", none⟩ false).logs.head? =
      some ⟨2, "d", "e", 0, 0, "f", some false⟩ ∧
    (saveLog (some ⟨[⟨1, "a", "b", 0, 0, "c", some false⟩], false⟩)
        ⟨2, "d", "e", 0, 0, "f", none⟩ false).logs.tail =
      (getLogs (some ⟨[⟨1, "a", "b", 0, 0, "c", some false⟩], false⟩) false).take 49 ∧
    getLogs (some ⟨[⟨1, "a", "b", 0, 0, "c", some false⟩], false⟩) false =
      [⟨1, "a", "b", 0, 0, "c", some false⟩] := by
  have h := saveLog_capped_newest_first
    (some ⟨[⟨1, "a", "b", 0, 0, "c", some false⟩], false⟩)
    ⟨2, "d", "e", 0, 0, "f", none⟩ false
  exact ⟨h.1, h.2.1, h.2.2.1,
    h.2.2.2.1 ⟨[⟨1, "a", "b", 0, 0, "c", some false⟩], false⟩ rfl (Or.inl rfl)⟩

/-! ## Key-map lemmas for claim C10 -/

theorem kmFind_append (m : KeyMap) (p : String × KeyEntry) (c : String) :
    kmFind (m ++ [p]) c =
      match kmFind m c with
      | some v => some v
      | none => if p.1 = c then some p.2 else none := by
  induction m with
  | nil => simp [kmFind]
  | cons q rest ih =>
    obtain ⟨k, v⟩ := q
    by_cases hk : k = c
    · simp [kmFind, hk]
    · simp [kmFind, hk, ih]

theorem kmFind_kmSet (m : KeyMap) (c c' : String) (e : KeyEntry) :
    kmFind (kmSet m c' e) c =
      if c' = c then (if (kmFind m c).isSome then some e else none)
      else kmFind m c := by
  induction m with
  | nil => simp [kmSet, kmFind]
  | cons q rest ih =>
    obtain ⟨k, v⟩ := q
    by_cases h1 : k = c'
    · subst h1
      by_cases h2 : k = c
      · subst h2
        simp [kmSet, kmFind]
      · simp [kmSet, kmFind, h2]
    · by_cases h2 : k = c
      · subst h2
        have hcc : c' ≠ k := fun h => h1 h.symm
        simp [kmSet, kmFind, h1, hcc]
      · simp [kmSet, kmFind, h1, h2, ih]

/-- Creating the entry for `c'` on first sight does not change the projected
view of any code. -/
theorem entProj_ensure (m : KeyMap) (c' c : String) :
    entProj (kmFind (if (kmFind m c').isNone then m ++ [(c', initEntry)] else m) c) =
      entProj (kmFind m c) := by
  split
  · rw [kmFind_append]
    cases h : kmFind m c with
    | some v => simp
    | none =>
      simp only
      split_ifs <;> simp [entProj, initEntry]
  · rfl

theorem isSome_kmFind_kmSet (m : KeyMap) (c c' : String) (e : KeyEntry) :
    (kmFind (kmSet m c' e) c).isSome = (kmFind m c).isSome := by
  rw [kmFind_kmSet]
  split_ifs <;> simp_all

theorem entProj_kmSet_errors (m : KeyMap) (c' c : String) (ent : KeyEntry) (n : ℕ)
    (hf : kmFind m c' = some ent) :
    entProj (kmFind (kmSet m c' { ent with errors := n }) c) = entProj (kmFind m c) := by
  rw [kmFind_kmSet]
  by_cases h : c' = c
  · subst h
    rw [hf]
    simp [entProj]
  · rw [if_neg h]

theorem down_case_proj (m1 : KeyMap) (st : ScanState) (e : KeyEvent) (c : String)
    (hty : e.type = KeyType.down)
    (hproj : ∀ d, entProj (kmFind m1 d) = entProj (kmFind st.keyMap d))
    (hsome : (kmFind m1 e.code).isSome) :
    entProj (kmFind (kmModify m1 e.code (fun en => { en with down := some e.timestamp })) c) =
      truthyPairStep c (entProj (kmFind st.keyMap c)) e := by
  obtain ⟨v, hv⟩ := Option.isSome_iff_exists.mp hsome
  unfold kmModify
  rw [hv]
  by_cases hc : e.code = c
  · have hsc : (kmFind m1 c).isSome := hc ▸ hsome
    rw [kmFind_kmSet, if_pos hc, if_pos hsc]
    have hpv : entProj (kmFind m1 c) = entProj (kmFind st.keyMap c) := hproj c
    rw [hc] at hv
    rw [hv] at hpv
    rw [← hpv]
    simp [truthyPairStep, hc, hty, entProj]
  · rw [kmFind_kmSet, if_neg hc, hproj c]
    simp [truthyPairStep, hc]

theorem up_case_proj (m1 : KeyMap) (st : ScanState) (e : KeyEvent) (c : String)
    (hty : e.type = KeyType.up)
    (hproj : ∀ d, entProj (kmFind m1 d) = entProj (kmFind st.keyMap d))
    (hsome : (kmFind m1 e.code).isSome) :
    entProj (kmFind
      (match kmFind m1 e.code with
        | none => m1
        | some en =>
          match en.down with
          | some t =>
            if t ≠ 0 then
              kmSet m1 e.code
                { en with down := none, totalDwell := en.totalDwell + (e.timestamp - t),
                          count := en.count + 1 }
            else m1
          | none => m1) c) =
      truthyPairStep c (entProj (kmFind st.keyMap c)) e := by
  obtain ⟨en, hen⟩ := Option.isSome_iff_exists.mp hsome
  rw [hen]
  by_cases hc : e.code = c
  · have hpv : entProj (kmFind m1 c) = entProj (kmFind st.keyMap c) := hproj c
    rw [hc] at hen
    rw [hen] at hpv
    rw [← hpv]
    cases hd : en.down with
    | none =>
      simp only [hd]
      rw [hen]
      simp [truthyPairStep, hc, hty, entProj, hd]
    | some t =>
      by_cases ht : t ≠ 0
      · simp only [hd, if_pos ht]
        have hsc : (kmFind m1 c).isSome := by rw [hen]; rfl
        rw [kmFind_kmSet, if_pos hc, if_pos hsc]
        simp [truthyPairStep, hc, hty, entProj, hd, ht]
      · simp only [hd, if_neg ht]
        rw [hen]
        simp only [ne_eq, not_not] at ht
        simp [truthyPairStep, hc, hty, entProj, hd, ht]
  · have heq : entProj (kmFind
        (match en.down with
          | some t =>
            if t ≠ 0 then
              kmSet m1 e.code
                { en with down := none, totalDwell := en.totalDwell + (e.timestamp - t),
                          count := en.count + 1 }
            else m1
          | none => m1) c) = entProj (kmFind m1 c) := by
      cases hd : en.down with
      | none => rfl
      | some t =>
        by_cases ht : t ≠ 0
        · simp only [if_pos ht]
          rw [kmFind_kmSet, if_neg hc]
        · simp only [if_neg ht]
    rw [heq, hproj c]
    simp [truthyPairStep, hc]

theorem stepEvent_entProj (st st' : ScanState) (e : KeyEvent) (c : String)
    (hs : stepEvent st e = some st') :
    entProj (kmFind st'.keyMap c) = truthyPairStep c (entProj (kmFind st.keyMap c)) e := by
  simp only [stepEvent] at hs
  set m0 : KeyMap :=
    if (kmFind st.keyMap e.code).isNone then st.keyMap ++ [(e.code, initEntry)]
    else st.keyMap with hm0
  have hproj0 : ∀ d, entProj (kmFind m0 d) = entProj (kmFind st.keyMap d) := by
    intro d
    rw [hm0]
    exact entProj_ensure st.keyMap e.code d
  have hsome0 : (kmFind m0 e.code).isSome := by
    rw [hm0]
    by_cases h : (kmFind st.keyMap e.code).isNone
    · rw [if_pos h, kmFind_append]
      rw [Option.isNone_iff_eq_none] at h
      rw [h]
      simp
    · rw [if_neg h]
      simp only [Option.isNone_iff_eq_none] at h
      exact Option.ne_none_iff_isSome.mp h
  by_cases hbs : e.key = "Backspace" ∧ e.type = KeyType.down
  · rw [if_pos hbs] at hs
    cases hfb : kmFind m0 "Backspace" with
    | none =>
      rw [hfb] at hs
      exact absurd hs (by simp)
    | some ent =>
      rw [hfb] at hs
      dsimp only at hs
      rw [hbs.2] at hs
      dsimp only at hs
      injection hs with hs'
      rw [← hs']
      dsimp only
      exact down_case_proj _ st e c hbs.2
        (fun d => (entProj_kmSet_errors m0 "Backspace" d ent _ hfb).trans (hproj0 d))
        ((isSome_kmFind_kmSet m0 e.code "Backspace" _).trans hsome0)
  · rw [if_neg hbs] at hs
    dsimp only at hs
    cases hty : e.type with
    | down =>
      rw [hty] at hs
      dsimp only at hs
      injection hs with hs'
      rw [← hs']
      dsimp only
      exact down_case_proj m0 st e c hty hproj0 hsome0
    | up =>
      rw [hty] at hs
      dsimp only at hs
      injection hs with hs'
      rw [← hs']
      dsimp only
      exact up_case_proj m0 st e c hty hproj0 hsome0

theorem processEvents_entProj (evs : List KeyEvent) (st0 st : ScanState) (c : String)
    (h : List.foldlM stepEvent st0 evs = some st) :
    entProj (kmFind st.keyMap c) =
      evs.foldl (truthyPairStep c) (entProj (kmFind st0.keyMap c)) := by
  induction evs generalizing st0 with
  | nil =>
    simp only [List.foldlM_nil, pure, Option.some_inj] at h
    rw [h]
    rfl
  | cons e rest ih =>
    rw [List.foldlM_cons] at h
    obtain ⟨st1, h1, h2⟩ := Option.bind_eq_some.mp h
    rw [List.foldl_cons, ← stepEvent_entProj st0 st1 e c h1]
    exact ih st1 h2

theorem kmKeys_kmSet (m : KeyMap) (c : String) (e : KeyEntry) :
    kmKeys (kmSet m c e) = kmKeys m := by
  induction m with
  | nil => rfl
  | cons q rest ih =>
    obtain ⟨k, v⟩ := q
    by_cases h : k = c
    · simp [kmSet, kmKeys, h]
    · simp only [kmSet, if_neg h, kmKeys, List.map_cons] at ih ⊢
      rw [ih]

theorem kmFind_eq_none_iff (m : KeyMap) (c : String) :
    kmFind m c = none ↔ c ∉ kmKeys m := by
  induction m with
  | nil => simp [kmFind, kmKeys]
  | cons q rest ih =>
    obtain ⟨k, v⟩ := q
    by_cases h : k = c
    · subst h
      simp [kmFind, kmKeys]
    · simp only [kmFind, if_neg h, ih, kmKeys, List.map_cons, List.mem_cons, not_or]
      constructor
      · intro hn
        exact ⟨fun hck => h hck.symm, hn⟩
      · exact fun hn => hn.2

theorem kmKeys_kmModify (m : KeyMap) (c : String) (f : KeyEntry → KeyEntry) :
    kmKeys (kmModify m c f) = kmKeys m := by
  unfold kmModify
  cases kmFind m c with
  | none => rfl
  | some v => exact kmKeys_kmSet m c (f v)

theorem kmKeys_up_match (m1 : KeyMap) (e : KeyEvent) :
    kmKeys
      (match kmFind m1 e.code with
        | none => m1
        | some en =>
          match en.down with
          | some t =>
            if t ≠ 0 then
              kmSet m1 e.code
                { en with down := none, totalDwell := en.totalDwell + (e.timestamp - t),
                          count := en.count + 1 }
            else m1
          | none => m1) = kmKeys m1 := by
  cases hf : kmFind m1 e.code with
  | none => rfl
  | some en =>
    dsimp only
    cases hd : en.down with
    | none => rfl
    | some t =>
      dsimp only
      by_cases ht : t ≠ 0
      · rw [if_pos ht, kmKeys_kmSet]
      · rw [if_neg ht]

theorem stepEvent_nodup (st st' : ScanState) (e : KeyEvent)
    (hs : stepEvent st e = some st') (h : (kmKeys st.keyMap).Nodup) :
    (kmKeys st'.keyMap).Nodup := by
  simp only [stepEvent] at hs
  set m0 : KeyMap :=
    if (kmFind st.keyMap e.code).isNone then st.keyMap ++ [(e.code, initEntry)]
    else st.keyMap with hm0
  have h0 : (kmKeys m0).Nodup := by
    rw [hm0]
    by_cases hn : (kmFind st.keyMap e.code).isNone
    · rw [if_pos hn]
      rw [Option.isNone_iff_eq_none, kmFind_eq_none_iff] at hn
      simp only [kmKeys, List.map_append, List.map_cons, List.map_nil] at h hn ⊢
      simp [List.nodup_append, h, hn]
    · rw [if_neg hn]
      exact h
  by_cases hbs : e.key = "Backspace" ∧ e.type = KeyType.down
  · rw [if_pos hbs] at hs
    cases hfb : kmFind m0 "Backspace" with
    | none =>
      rw [hfb] at hs
      exact absurd hs (by simp)
    | some ent =>
      rw [hfb] at hs
      dsimp only at hs
      rw [hbs.2] at hs
      dsimp only at hs
      injection hs with hs'
      rw [← hs']
      dsimp only
      rw [kmKeys_kmModify, kmKeys_kmSet]
      exact h0
  · rw [if_neg hbs] at hs
    dsimp only at hs
    cases hty : e.type with
    | down =>
      rw [hty] at hs
      dsimp only at hs
      injection hs with hs'
      rw [← hs']
      dsimp only
      rw [kmKeys_kmModify]
      exact h0
    | up =>
      rw [hty] at hs
      dsimp only at hs
      injection hs with hs'
      rw [← hs']
      dsimp only
      rw [kmKeys_up_match]
      exact h0

theorem processEvents_nodup (evs : List KeyEvent) (st0 st : ScanState)
    (h0 : (kmKeys st0.keyMap).Nodup)
    (h : List.foldlM stepEvent st0 evs = some st) :
    (kmKeys st.keyMap).Nodup := by
  induction evs generalizing st0 with
  | nil =>
    simp only [List.foldlM_nil, pure, Option.some_inj] at h
    rw [← h]
    exact h0
  | cons e rest ih =>
    rw [List.foldlM_cons] at h
    obtain ⟨st1, h1, h2⟩ := Option.bind_eq_some.mp h
    exact ih st1 (stepEvent_nodup st0 st1 e h1 h0) h2

theorem kmFind_of_mem_nodup (m : KeyMap) (c : String) (v : KeyEntry)
    (hm : (c, v) ∈ m) (hnd : (kmKeys m).Nodup) : kmFind m c = some v := by
  induction m with
  | nil => cases hm
  | cons q rest ih =>
    obtain ⟨k, w⟩ := q
    rcases List.mem_cons.mp hm with heq | hmem
    · cases heq
      simp [kmFind]
    · by_cases hk : k = c
      · subst hk
        exfalso
        have hcmem : k ∈ kmKeys rest :=
          List.mem_map_of_mem Prod.fst hmem
        have := (List.nodup_cons.mp hnd).1
        exact this hcmem
      · simp only [kmFind, if_neg hk]
        exact ih hmem (List.nodup_cons.mp hnd).2

/-- C10 (amended): every entry of `topKeys` comes from a key-map entry whose
occurrence count equals the number of down/up pairs the scan completed for
that physical code, where an up only completes a pair when the pending down
timestamp is truthy (nonzero) — not the number of down events; its
avgDwellTime is the per-pair dwell mean (0 when no pair completed, in
particular for a code whose presses are never released), while every down
event still counts toward `totalKeys`. -/
theorem topKeys_count_semantics (now : ℤ) (evs : List KeyEvent)
    (ms : List MouseEventData) (p : Bool) (m : SessionMetrics)
    (hm : calculateMetrics now evs ms p = some m) :
    (∀ k, k ∈ m.topKeys → ∃ c ent st, processEvents evs = some st ∧
        kmFind st.keyMap c = some ent ∧
        k.count = countTruthyPairs evs c ∧
        k.count = ent.count ∧
        k.avgDwellTime =
          (if 0 < ent.count then (ent.totalDwell : ℚ) / (ent.count : ℚ) else 0) ∧
        (k.count = 0 → k.avgDwellTime = 0)) ∧
    m.totalKeys = totalKeysOf evs := by
  cases evs with
  | nil =>
    simp only [calculateMetrics] at hm
    injection hm with hm'
    subst hm'
    constructor
    · intro k hk
      simp at hk
    · rfl
  | cons e0 rest =>
    cases hproc : processEvents (e0 :: rest) with
    | none =>
      simp only [calculateMetrics, hproc] at hm
      exact Option.noConfusion hm
    | some st =>
      simp only [calculateMetrics, hproc] at hm
      injection hm with hm'
      subst hm'
      constructor
      · intro k hk
        dsimp only at hk
        simp only [sortByCountDesc, List.mem_mergeSort] at hk
        obtain ⟨pair, hpm, hkp⟩ := List.mem_map.mp hk
        obtain ⟨c, ent⟩ := pair
        have hfold : List.foldlM stepEvent ⟨[], [], 0, 0⟩ (e0 :: rest) = some st := hproc
        have hnd : (kmKeys st.keyMap).Nodup :=
          processEvents_nodup (e0 :: rest) ⟨[], [], 0, 0⟩ st (by simp [kmKeys]) hfold
        have hfind : kmFind st.keyMap c = some ent :=
          kmFind_of_mem_nodup st.keyMap c ent hpm hnd
        have hcount : ent.count = countTruthyPairs (e0 :: rest) c := by
          have hp := processEvents_entProj (e0 :: rest) ⟨[], [], 0, 0⟩ st c hfold
          rw [hfind] at hp
          have h2 : (entProj (some ent)).2 = countTruthyPairs (e0 :: rest) c := by
            rw [hp]
            rfl
          simpa [entProj] using h2
        refine ⟨c, ent, st, rfl, hfind, ?_, ?_, ?_, ?_⟩
        · rw [← hkp, ← hcount]
          rfl
        · rw [← hkp]
          rfl
        · rw [← hkp]
          rfl
        · intro h0
          rw [← hkp] at h0 ⊢
          simp only [mkKeyMetric] at h0 ⊢
          rw [h0]
          simp
      · rfl

/-- C10 counterexample: for `[down KeyA @0, up KeyA @80]` the down/up pair for
`KeyA` IS completed (completedPairsSpec = 1, following the claim's words), yet
the `topKeys` entry reports count 0 and avgDwellTime 0, because the pending
down timestamp 0 is falsy in `if (keyMap[event.code].down)`; the down event
still counts in `totalKeys` (= 1). -/
theorem pair_at_ts0_not_counted :
    completedPairsSpec
      [⟨"a", "KeyA", 0, KeyType.down⟩, ⟨"a", "KeyA", 80, KeyType.up⟩] "KeyA" = 1 ∧
    (calculateMetrics 0
      [⟨"a", "KeyA", 0, KeyType.down⟩, ⟨"a", "KeyA", 80, KeyType.up⟩] [] false).map
        (fun m => (m.totalKeys, m.topKeys.map (fun k => (k.key, k.count, k.avgDwellTime)))) =
      some (1, [("A", 0, 0)]) := by
  constructor
  · decide
  · have hp : processEvents [⟨"a", "KeyA", 0, KeyType.down⟩, ⟨"a", "KeyA", 80, KeyType.up⟩] =
        some ⟨[("KeyA", ⟨some 0, 0, 0, 0⟩)], [], 0, 80⟩ := by decide
    simp only [calculateMetrics, hp]
    norm_num [totalKeysOf, mkKeyMetric, sortByCountDesc, List.mergeSort,
      jsReplaceFirst, replFirstAux, List.filter]
    decide

/-- C10 witness: a single never-released `down KeyB @5` — its topKeys entry
has count 0 and avgDwellTime 0 while totalKeys counts the down event. -/
theorem topKeys_count_semantics_witness :
    (∃ c ent st, processEvents [⟨"b", "KeyB", 5, KeyType.down⟩] = some st ∧
      kmFind st.keyMap c = some ent ∧
      (⟨"B", 0, 0, 0⟩ : KeyMetrics).count =
        countTruthyPairs [⟨"b", "KeyB", 5, KeyType.down⟩] c ∧
      (⟨"B", 0, 0, 0⟩ : KeyMetrics).count = ent.count ∧
      ((⟨"B", 0, 0, 0⟩ : KeyMetrics).avgDwellTime =
        if 0 < ent.count then (ent.totalDwell : ℚ) / (ent.count : ℚ) else 0) ∧
      ((⟨"B", 0, 0, 0⟩ : KeyMetrics).count = 0 →
        (⟨"B", 0, 0, 0⟩ : KeyMetrics).avgDwellTime = 0)) ∧
    (calculateMetrics 7 [⟨"b", "KeyB", 5, KeyType.down⟩] [] false).map
      (fun m => m.totalKeys) = some (totalKeysOf [⟨"b", "KeyB", 5, KeyType.down⟩]) := by
  have hp : processEvents [⟨"b", "KeyB", 5, KeyType.down⟩] =
      some ⟨[("KeyB", ⟨some 5, 0, 0, 0⟩)], [], 0, 0⟩ := by decide
  cases hcm : calculateMetrics 7 [⟨"b", "KeyB", 5, KeyType.down⟩] [] false with
  | none =>
    simp only [calculateMetrics, hp] at hcm
    exact Option.noConfusion hcm
  | some mB =>
    have h := topKeys_count_semantics 7 [⟨"b", "KeyB", 5, KeyType.down⟩] [] false mB hcm
    have hk : (⟨"B", 0, 0, 0⟩ : KeyMetrics) ∈ mB.topKeys := by
      simp only [calculateMetrics, hp] at hcm
      injection hcm with hcm'
      rw [← hcm']
      dsimp only
      norm_num [sortByCountDesc, List.mergeSort, mkKeyMetric, jsReplaceFirst, replFirstAux]
    refine ⟨h.1 ⟨"B", 0, 0, 0⟩ hk, ?_⟩
    simp [h.2]

/-- C7 witness: from a state whose last up was at 80, a down at 2080 (gap
exactly 2000) records no flight sample, while a down at 2079 (gap exactly
1999) records the sample 1999. -/
theorem flight_gap_policy_witness :
    (⟨[("KeyA", ⟨some 2080, 0, 0, 0⟩)], [], 0, 80⟩ : ScanState).flightTimes =
      (⟨[], [], 0, 80⟩ : ScanState).flightTimes ∧
    (⟨[("KeyA", ⟨some 2079, 0, 0, 0⟩)], [1999], 0, 80⟩ : ScanState).flightTimes =
      (⟨[], [], 0, 80⟩ : ScanState).flightTimes ++ [1999] := by
  have h1 := flight_gap_policy ⟨[], [], 0, 80⟩ ⟨[("KeyA", ⟨some 2080, 0, 0, 0⟩)], [], 0, 80⟩
    ⟨"a", "KeyA", 2080, KeyType.down⟩ rfl (by decide)
  have h2 := flight_gap_policy ⟨[], [], 0, 80⟩ ⟨[("KeyA", ⟨some 2079, 0, 0, 0⟩)], [1999], 0, 80⟩
    ⟨"a", "KeyA", 2079, KeyType.down⟩ rfl (by decide)
  exact ⟨h1.1 (by norm_num), h2.2.1 (by norm_num) (by norm_num)⟩
